import Mathlib

/-
  Verification of the EventPlayback capture/replay engine (src/main.py).

  A shallow embedding of the core data model and operations:
  Python dict/JSON values become the inductive `PyVal`, Python floats become
  rationals (`Rat`), dicts become association lists, and fallible code returns
  `Except`.  Each definition is translated from the corresponding function in
  src/main.py; the source line numbers are noted next to each definition.
-/

namespace EventPlayback

/-- A Python value as it appears in a `json.load`ed document or in an
`Event`/`Macro` payload field.  Numbers are modelled as rationals
(Python ints and floats are both JSON numbers; `float()` coercion is the
identity on this model).  Python `None` / JSON `null` is `PyVal.null`. -/
inductive PyVal where
  | null
  | bool (b : Bool)
  | num (q : Rat)
  | str (s : String)
  | list (l : List PyVal)
  | dict (d : List (String × PyVal))
deriving Repr

/-- Python `isinstance(v, (int, float))` as used by `Event.from_dict`
(src/main.py line 83).  Note Python's `bool` is a subclass of `int`,
so booleans count as numeric there. -/
def PyVal.isNumeric : PyVal → Bool
  | .num _ => true
  | .bool _ => true
  | _ => false

/-- Python `float(v)` for a value that passed `isNumeric`
(`float(True) = 1.0`, `float(False) = 0.0`). -/
def PyVal.toRat : PyVal → Rat
  | .num q => q
  | .bool b => if b then 1 else 0
  | _ => 0

/-- Python truthiness (`if v:`), for the values that occur in event payloads. -/
def PyVal.truthy : PyVal → Bool
  | .null => false
  | .bool b => b
  | .num q => decide (q ≠ 0)
  | .str s => decide (s ≠ "")
  | .list l => !l.isEmpty
  | .dict d => !d.isEmpty

/-- Python `v == s` for a string literal `s` (False when `v` is not a string). -/
def PyVal.eqStr : PyVal → String → Bool
  | .str t, s => t == s
  | _, _ => false

/-- `d.get(k)` on an event record: a key that is absent, or present with value
`None`, both yield Python `None`, which is the `none` of an `Option` payload
field (src/main.py lines 88-91). -/
def pyGetOpt (d : List (String × PyVal)) (k : String) : Option PyVal :=
  match List.lookup k d with
  | some PyVal.null => none
  | some v => some v
  | none => none

/-- `d.get(k, default)`: the stored value when the key is present (even if it
is `None`), otherwise the default (src/main.py lines 123-125). -/
def pyGetD (d : List (String × PyVal)) (k : String) (dflt : PyVal) : PyVal :=
  (List.lookup k d).getD dflt

/-- The closed set of event kinds (src/main.py lines 47-52). -/
inductive EventType where
  | MOUSE_MOVE
  | MOUSE_CLICK
  | MOUSE_SCROLL
  | KEY_PRESS
  | KEY_RELEASE
deriving DecidableEq, Repr

/-- `EventType.value` — the wire string of each kind. -/
def EventType.value : EventType → String
  | .MOUSE_MOVE => "mouse_move"
  | .MOUSE_CLICK => "mouse_click"
  | .MOUSE_SCROLL => "mouse_scroll"
  | .KEY_PRESS => "key_press"
  | .KEY_RELEASE => "key_release"

/-- `EventType(v)` — the enum constructor applied to an arbitrary value;
`none` models the `ValueError` raised for anything outside the closed set
(src/main.py lines 79-82). -/
def EventType.fromPy : PyVal → Option EventType
  | .str "mouse_move" => some .MOUSE_MOVE
  | .str "mouse_click" => some .MOUSE_CLICK
  | .str "mouse_scroll" => some .MOUSE_SCROLL
  | .str "key_press" => some .KEY_PRESS
  | .str "key_release" => some .KEY_RELEASE
  | _ => none

/-- The `Event` dataclass (src/main.py lines 55-65).  Payload fields hold
whatever Python value was stored (the dataclass performs no runtime type
check), so they are `Option PyVal` with `none` for Python `None`. -/
structure Event where
  type : EventType
  timestamp : Rat
  x : Option PyVal := none
  y : Option PyVal := none
  button : Option PyVal := none
  key : Option PyVal := none
  pressed : Option PyVal := none
  scroll_dx : Option PyVal := none
  scroll_dy : Option PyVal := none
deriving Repr

/-- One optional entry of the serialized record: emitted only when populated
(src/main.py lines 69-72). -/
def optField (k : String) : Option PyVal → List (String × PyVal)
  | none => []
  | some v => [(k, v)]

/-- `Event.to_dict` (src/main.py lines 67-73): `type` and `timestamp` always,
then each populated optional field, in the source's fixed key order. -/
def Event.to_dict (e : Event) : List (String × PyVal) :=
  ("type", .str e.type.value) :: ("timestamp", .num e.timestamp) ::
    (optField "x" e.x ++ optField "y" e.y ++ optField "button" e.button ++
      optField "key" e.key ++ optField "pressed" e.pressed ++
      optField "scroll_dx" e.scroll_dx ++ optField "scroll_dy" e.scroll_dy)

/-- The `ValueError`s raised by `Event.from_dict`, by offending field
(src/main.py lines 77-84).  `notDict` stands for the `TypeError`/`ValueError`
a non-dict record provokes; `Macro.from_dict` catches every exception alike. -/
inductive EventError where
  | missingRequired
  | invalidType (v : PyVal)
  | timestampNotNumber (v : PyVal)
  | notDict (v : PyVal)
deriving Repr

/-- `Event.from_dict` (src/main.py lines 75-92): `type` and `timestamp` are
mandatory, `type` must be in the closed set, `timestamp` must be numeric and
is coerced to float; every other field is read with `d.get`, so unknown keys
are ignored and missing optional fields default to absent. -/
def Event.from_dict (v : PyVal) : Except EventError Event :=
  match v with
  | .dict d =>
    match List.lookup "type" d, List.lookup "timestamp" d with
    | some tv, some tsv =>
      match EventType.fromPy tv with
      | none => .error (.invalidType tv)
      | some ty =>
        if tsv.isNumeric then
          .ok { type := ty, timestamp := tsv.toRat,
                x := pyGetOpt d "x", y := pyGetOpt d "y",
                button := pyGetOpt d "button", key := pyGetOpt d "key",
                pressed := pyGetOpt d "pressed",
                scroll_dx := pyGetOpt d "scroll_dx",
                scroll_dy := pyGetOpt d "scroll_dy" }
        else .error (.timestampNotNumber tsv)
    | _, _ => .error .missingRequired
  | w => .error (.notDict w)

/-- The `ValueError`s raised by `Macro.from_dict` (src/main.py lines 110-121).
`badEvent i e` is the wrapper error citing the index of the first bad event. -/
inductive MacroError where
  | notDict
  | missingEvents
  | eventsNotList
  | badEvent (i : Nat) (e : EventError)
deriving Repr

/-- The `Macro` dataclass (src/main.py lines 95-99).  `name` and `created_at`
hold whatever Python value is stored (the deserializer performs no type check
on them), so they are `PyVal`. -/
structure Macro where
  name : PyVal := .str "New Macro"
  events : List Event := []
  created_at : PyVal := .str ""
deriving Repr

/-- `Macro.to_dict` (src/main.py lines 101-106). -/
def Macro.to_dict (m : Macro) : PyVal :=
  .dict [("name", m.name), ("created_at", m.created_at),
         ("events", .list (m.events.map (fun e => .dict e.to_dict)))]

/-- The indexed loop of `Macro.from_dict` (src/main.py lines 116-121):
each element is deserialized in order; the first failure aborts the whole
load, wrapped with the element's index. -/
def parseEvents : List PyVal → Nat → Except MacroError (List Event)
  | [], _ => .ok []
  | x :: rest, i =>
    match Event.from_dict x with
    | .error er => .error (.badEvent i er)
    | .ok ev =>
      match parseEvents rest (i + 1) with
      | .error er2 => .error er2
      | .ok evs => .ok (ev :: evs)

/-- `Macro.from_dict` (src/main.py lines 108-126): the record must be a dict,
`events` must be present and a list, every element must deserialize; `name`
defaults to "Untitled" and `created_at` to "" when absent.  Failure yields no
`Macro` at all (the classmethod raises before constructing anything). -/
def Macro.from_dict (v : PyVal) : Except MacroError Macro :=
  match v with
  | .dict d =>
    match List.lookup "events" d with
    | none => .error .missingEvents
    | some ev =>
      match ev with
      | .list l =>
        match parseEvents l 0 with
        | .error er => .error er
        | .ok evs =>
          .ok { name := pyGetD d "name" (.str "Untitled"), events := evs,
                created_at := pyGetD d "created_at" (.str "") }
      | _ => .error .eventsNotList
  | _ => .error .notDict

/-- Whether an `Except` is in the error case. -/
def isErr : Except ε α → Bool
  | .error _ => true
  | .ok _ => false

/-- A populated integer-valued field. -/
def optIsIntNum : Option PyVal → Bool
  | some (.num q) => q.den == 1
  | _ => false

/-- A populated string-valued field. -/
def optIsStr : Option PyVal → Bool
  | some (.str _) => true
  | _ => false

/-- A populated boolean-valued field. -/
def optIsBool : Option PyVal → Bool
  | some (.bool _) => true
  | _ => false

/-- A populated button field with one of the three normalized identities. -/
def optIsBtn : Option PyVal → Bool
  | some (.str s) => s == "left" || s == "right" || s == "middle"
  | _ => false

/-- An event carries only valid populated fields: exactly the payload fields
meaningful for its kind are present, with the wire types of spec sections 3
and 6. -/
def Event.validFields (e : Event) : Bool :=
  match e.type with
  | .MOUSE_MOVE =>
    optIsIntNum e.x && optIsIntNum e.y && e.button.isNone && e.key.isNone &&
      e.pressed.isNone && e.scroll_dx.isNone && e.scroll_dy.isNone
  | .MOUSE_CLICK =>
    optIsIntNum e.x && optIsIntNum e.y && optIsBtn e.button && e.key.isNone &&
      optIsBool e.pressed && e.scroll_dx.isNone && e.scroll_dy.isNone
  | .MOUSE_SCROLL =>
    optIsIntNum e.x && optIsIntNum e.y && e.button.isNone && e.key.isNone &&
      e.pressed.isNone && optIsIntNum e.scroll_dx && optIsIntNum e.scroll_dy
  | .KEY_PRESS =>
    e.x.isNone && e.y.isNone && e.button.isNone && optIsStr e.key &&
      optIsBool e.pressed && e.scroll_dx.isNone && e.scroll_dy.isNone
  | .KEY_RELEASE =>
    e.x.isNone && e.y.isNone && e.button.isNone && optIsStr e.key &&
      optIsBool e.pressed && e.scroll_dx.isNone && e.scroll_dy.isNone

/-- The record keys `Event.from_dict` reads; every other key is ignored. -/
def eventKnownKeys : List String :=
  ["type", "timestamp", "x", "y", "button", "key", "pressed", "scroll_dx", "scroll_dy"]

/-- The members of the pynput `keyboard.Key` enum that this program's
name-to-native table targets (src/main.py lines 420-433).  In pynput the
escape key is the member `esc` — its enum `name` is the string "esc". -/
inductive PynputKey where
  | space | enter | tab | backspace | delete | esc
  | shift | shift_l | shift_r | ctrl | ctrl_l | ctrl_r
  | alt | alt_l | alt_r | alt_gr | caps_lock
  | up | down | left | right | home | end_ | page_up | page_down | insert
  | f1 | f2 | f3 | f4 | f5 | f6 | f7 | f8 | f9 | f10 | f11 | f12
deriving DecidableEq, Repr

/-- The Python enum member name (`key.name`) of each pynput `Key`. -/
def PynputKey.name : PynputKey → String
  | .space => "space" | .enter => "enter" | .tab => "tab"
  | .backspace => "backspace" | .delete => "delete" | .esc => "esc"
  | .shift => "shift" | .shift_l => "shift_l" | .shift_r => "shift_r"
  | .ctrl => "ctrl" | .ctrl_l => "ctrl_l" | .ctrl_r => "ctrl_r"
  | .alt => "alt" | .alt_l => "alt_l" | .alt_r => "alt_r"
  | .alt_gr => "alt_gr" | .caps_lock => "caps_lock"
  | .up => "up" | .down => "down" | .left => "left" | .right => "right"
  | .home => "home" | .end_ => "end"
  | .page_up => "page_up" | .page_down => "page_down" | .insert => "insert"
  | .f1 => "f1" | .f2 => "f2" | .f3 => "f3" | .f4 => "f4" | .f5 => "f5"
  | .f6 => "f6" | .f7 => "f7" | .f8 => "f8" | .f9 => "f9" | .f10 => "f10"
  | .f11 => "f11" | .f12 => "f12"

/-- A key as delivered by a pynput keyboard listener: either a `KeyCode`
(printable key, with a possibly-absent `char`) or a special `Key` enum
member (which has `name` but no `char`). -/
inductive PKey where
  | keyCode (char : Option String)
  | special (k : PynputKey)
deriving Repr

/-- `Recorder.INTERVAL` (src/main.py line 145): the 20 ms move throttle. -/
def Recorder.INTERVAL : Rat := mkRat 1 50

/-- `Recorder.EXCLUDED_HOTKEYS` (src/main.py line 146). -/
def Recorder.EXCLUDED_HOTKEYS : List String := ["f9", "f10", "escape"]

/-- `Recorder._key_name` (src/main.py lines 246-266): a `KeyCode` with a
character yields that character; a `KeyCode` without one has no `name`
attribute either, so the conversion fails; a special `Key` has no `char`
attribute (the `AttributeError` is swallowed) and yields its enum name. -/
def Recorder.key_name : PKey → Option String
  | .keyCode (some c) => some c
  | .keyCode none => none
  | .special k => some k.name

/-- The recorder state shared between the listener callbacks and the
controller (src/main.py lines 148-156): the event buffer, the Active flag and
the last-recorded-move marker.  Timestamps are passed to the handlers already
relative to the reference instant (`_ts()`, line 203). -/
structure Recorder.RecState where
  events : List Event
  recording : Bool
  last_move : Rat
deriving Repr

/-- `Recorder.start` (src/main.py lines 158-176), state part: a no-op while
Active, otherwise clear the buffer, reset the move marker and become Active. -/
def Recorder.start (s : RecState) : RecState :=
  if s.recording then s
  else { events := [], recording := true, last_move := 0 }

/-- `Recorder._on_move` (src/main.py lines 212-219): ignore while Idle;
discard when less than `INTERVAL` has elapsed since the last recorded move;
otherwise update the marker and append a MouseMove event. -/
def Recorder.on_move (s : RecState) (t : Rat) (x y : Int) : RecState :=
  if s.recording = false then s
  else if t - s.last_move < INTERVAL then s
  else { s with last_move := t,
                events := s.events ++
                  [{ type := .MOUSE_MOVE, timestamp := t,
                     x := some (.num x), y := some (.num y) }] }

/-- `Recorder._on_press` (src/main.py lines 232-237): ignore while Idle;
resolve the key's name; drop the event when resolution fails, when the name
is falsy, or when the name is in `EXCLUDED_HOTKEYS`; otherwise append a
KeyPress event. -/
def Recorder.on_press (s : RecState) (t : Rat) (k : PKey) : RecState :=
  if s.recording = false then s
  else
    match key_name k with
    | none => s
    | some name =>
      if name ≠ "" ∧ name ∉ EXCLUDED_HOTKEYS then
        { s with events := s.events ++
            [{ type := .KEY_PRESS, timestamp := t,
               key := some (.str name), pressed := some (.bool true) }] }
      else s

/-- `Recorder._on_release` (src/main.py lines 239-244): as `on_press` but
appending a KeyRelease event with `pressed = False`. -/
def Recorder.on_release (s : RecState) (t : Rat) (k : PKey) : RecState :=
  if s.recording = false then s
  else
    match key_name k with
    | none => s
    | some name =>
      if name ≠ "" ∧ name ∉ EXCLUDED_HOTKEYS then
        { s with events := s.events ++
            [{ type := .KEY_RELEASE, timestamp := t,
               key := some (.str name), pressed := some (.bool false) }] }
      else s

/-- Python `str.lower()` as used on key names (`name.lower()`, src/main.py
line 419).  The key names handled by this program are ASCII, where Python's
`lower` agrees with per-character ASCII lowering. -/
def strLower (s : String) : String := ⟨s.data.map Char.toLower⟩

/-- `Player.VALID_SPECIAL_CHARS` (src/main.py line 282), as a character
list (the Python membership test on a one-character string is character
membership). -/
def Player.VALID_SPECIAL_CHARS : List Char :=
  ['!', '@', '#', '$', '%', '^', '&', '*', '(', ')', '_', '+', '-', '=',
   '[', ']', Char.ofNat 123, Char.ofNat 125, '|', ';', ':', Char.ofNat 39,
   Char.ofNat 34, ',', '.', '<', '>', '?', '/', '~', Char.ofNat 96]

/-- The fixed name-to-native table of `Player._to_key`
(src/main.py lines 420-433), in source order. -/
def Player.specialKeys : List (String × PynputKey) :=
  [("space", .space), ("enter", .enter), ("tab", .tab),
   ("backspace", .backspace), ("delete", .delete),
   ("escape", .esc), ("shift", .shift), ("shift_l", .shift_l),
   ("shift_r", .shift_r), ("ctrl", .ctrl), ("ctrl_l", .ctrl_l),
   ("ctrl_r", .ctrl_r), ("alt", .alt), ("alt_l", .alt_l),
   ("alt_r", .alt_r), ("alt_gr", .alt_gr),
   ("caps_lock", .caps_lock), ("up", .up), ("down", .down),
   ("left", .left), ("right", .right), ("home", .home),
   ("end", .end_), ("page_up", .page_up), ("page_down", .page_down),
   ("insert", .insert), ("f1", .f1), ("f2", .f2), ("f3", .f3),
   ("f4", .f4), ("f5", .f5), ("f6", .f6), ("f7", .f7),
   ("f8", .f8), ("f9", .f9), ("f10", .f10), ("f11", .f11), ("f12", .f12)]

/-- `Player._to_key` (src/main.py lines 407-442): lower-case the name, look
it up in the fixed special-key table; otherwise accept a single alphanumeric
or listed punctuation character as a literal key (`Sum.inr`); otherwise the
name is unknown and the caller skips the key (a warning is logged). -/
def Player.to_key (name : String) : Option (PynputKey ⊕ String) :=
  let nl := strLower name
  match List.lookup nl specialKeys with
  | some k => some (Sum.inl k)
  | none =>
    match nl.toList with
    | [c] =>
      if c.isAlphanum || VALID_SPECIAL_CHARS.contains c then
        some (Sum.inr nl)
      else none
    | _ => none

/-- The three normalized mouse buttons (src/main.py line 224 / 379). -/
inductive MouseBtn where
  | left | right | middle
deriving DecidableEq, Repr

/-- A synthetic OS input action issued by the Player's injection dispatch
(pynput controller calls, src/main.py lines 371-405). -/
inductive OSAction where
  | setPosition (x y : PyVal)
  | press (b : MouseBtn)
  | release (b : MouseBtn)
  | scroll (dx dy : PyVal)
  | keyPress (k : PynputKey ⊕ String)
  | keyRelease (k : PynputKey ⊕ String)
deriving Repr

/-- Button normalization in `_play_mouse_click` (src/main.py line 379):
"left" and "right" by equality, everything else middle. -/
def Player.btnOf (v : PyVal) : MouseBtn :=
  if v.eqStr "left" then .left
  else if v.eqStr "right" then .right
  else .middle

/-- The OS calls attempted by `Player._play_event`'s dispatch for one event,
in order, paired with whether the handler body itself raises a Python
exception before any OS call (only possible on the key paths, where a
non-string stored key makes `name.lower()` raise `AttributeError`); all
guards are the source's: `is not None` checks become `Option` matches and
bare `if field:` checks become truthiness (src/main.py lines 352-405). -/
def Player.play_calls (e : Event) : List OSAction × Bool :=
  match e.type with
  | .MOUSE_MOVE =>
    match e.x, e.y with
    | some vx, some vy => ([.setPosition vx vy], false)
    | _, _ => ([], false)
  | .MOUSE_CLICK =>
    match e.button, e.pressed, e.x, e.y with
    | some b, some p, some _, some _ =>
      if b.truthy then
        (if p.truthy then [.press (btnOf b)] else [.release (btnOf b)], false)
      else ([], false)
    | _, _, _, _ => ([], false)
  | .MOUSE_SCROLL =>
    match e.x, e.y with
    | some _, some _ =>
      ((match e.scroll_dy with
        | some dy => if dy.truthy then [.scroll (.num 0) dy] else []
        | none => []) ++
       (match e.scroll_dx with
        | some dx => if dx.truthy then [.scroll dx (.num 0)] else []
        | none => []), false)
    | _, _ => ([], false)
  | .KEY_PRESS =>
    match e.key with
    | none => ([], false)
    | some (.str s) =>
      match to_key s with
      | some k2 => ([.keyPress k2], false)
      | none => ([], false)
    | some _ => ([], true)
  | .KEY_RELEASE =>
    match e.key with
    | none => ([], false)
    | some (.str s) =>
      match to_key s with
      | some k2 => ([.keyRelease k2], false)
      | none => ([], false)
    | some _ => ([], true)

/-- Executing the attempted calls against an injector: `raises` marks OS
calls that raise; the first failing call aborts the rest of this event's
dispatch (the exception propagates to `_play_event`'s handler).  Returns the
completed calls and whether an exception occurred. -/
def Player.execCalls (raises : OSAction → Bool) : List OSAction → List OSAction × Bool
  | [] => ([], false)
  | a :: rest =>
    if raises a then ([], true)
    else
      let p := execCalls raises rest
      (a :: p.1, p.2)

/-- `Player._play_event` (src/main.py lines 352-369): the completed OS
actions of one event, and whether the per-event error callback fired (any
exception in the handler is caught, reported once, and the pass continues). -/
def Player.play_event (raises : OSAction → Bool) (e : Event) :
    List OSAction × Bool :=
  let c := play_calls e
  if c.2 then ([], true) else execCalls raises c.1

/-- One primitive step of the replay path, as externally observable effects:
a read of `_stop_flag`, one `time.sleep` call of a given duration, or the
injection of an event via `_play_event`. -/
inductive Player.TraceOp where
  | check
  | sleepFor (d : Rat)
  | inject (e : Event)
deriving Repr

/-- `Player._play_once` (src/main.py lines 340-350) under an idealized clock:
sleeps last exactly their requested duration, everything else is
instantaneous; `now` is elapsed time since this pass's reference instant.
`f` gives the value of `_stop_flag` at its n-th read (read index threaded
through); the flag is read once per event, before the wait, and a true read
breaks out of the pass.  The wait is a single `time.sleep` of the entire
remaining gap `start + timestamp - now`, issued only when positive.  Returns
the trace of steps and the next read index. -/
def Player.play_once_tr (f : Nat → Bool) :
    List Event → Rat → Nat → List TraceOp × Nat
  | [], _, i => ([], i)
  | e :: rest, now, i =>
    if f i then ([.check], i + 1)
    else
      let w := e.timestamp - now
      let p := play_once_tr f rest (max now e.timestamp) (i + 1)
      (.check :: ((if 0 < w then [.sleepFor w] else []) ++
          .inject e :: p.1),
        p.2)

/-- `Player.set_loop` (src/main.py lines 299-300). -/
def Player.set_loop (count : Int) : Int := max 0 count

/-- `Player._run` (src/main.py lines 328-338), fuel-bounded: each while-loop
iteration consumes one unit of fuel, so `none` means the loop is still
running after `fuel` iterations.  A `some` result carries the pass traces in
order, whether the run ended because the while-condition observed the
cancellation flag (`true`) or because the positive loop budget was exhausted
(`false`), and whether the final `self.on_complete and not self._stop_flag`
re-check lets the completion callback fire (given one is installed).
`_playing` is set to False unconditionally on every exit path (lines
335-336), so a terminated run always leaves the Player Idle. -/
def Player.run_aux (f : Nat → Bool) (events : List Event) (lc : Int) :
    Nat → Nat → Nat → Option (List (List TraceOp) × Bool × Bool)
  | 0, _, _ => none
  | fuel + 1, loop, i =>
    if f i then some ([], true, !f (i + 1))
    else
      let p := play_once_tr f events 0 (i + 1)
      if 0 < lc ∧ lc ≤ (loop : Int) + 1 then some ([p.1], false, !f p.2)
      else
        match run_aux f events lc fuel (loop + 1) p.2 with
        | none => none
        | some (trs, c, comp) => some (p.1 :: trs, c, comp)

/-- `Player._run` from its entry (`loop = 0`, first flag read). -/
def Player.run (f : Nat → Bool) (events : List Event) (lc : Int) (fuel : Nat) :
    Option (List (List TraceOp) × Bool × Bool) :=
  run_aux f events lc fuel 0 0

/-- A stop flag that is never set (`stop()` is never called). -/
def Player.neverStop : Nat → Bool := fun _ => false

/-- A stop flag observed set from its `N`-th read on (a `stop()` call lands
between the `N-1`-th and `N`-th reads and the flag is never cleared). -/
def Player.stopFrom (N : Nat) : Nat → Bool := fun n => decide (N ≤ n)

/-- A realizable stop flag: once observed set it stays set (`_stop_flag` is
only written False before the thread starts and True by `stop()`). -/
def Player.MonotoneFlag (f : Nat → Bool) : Prop :=
  ∀ m n, m ≤ n → f m = true → f n = true

/-- The number of injected events in a trace. -/
def Player.injectCount : List TraceOp → Nat
  | [] => 0
  | .inject _ :: rest => injectCount rest + 1
  | _ :: rest => injectCount rest

/-- `stop()`'s bounded join timeout, in seconds (src/main.py line 317). -/
def Player.STOP_TIMEOUT : Rat := 1

/-- Split a pass trace at its flag checks, accumulating the total slept time
of each check-free segment. -/
def Player.sleepRuns : List TraceOp → Rat → List Rat
  | [], acc => [acc]
  | .check :: rest, acc => acc :: sleepRuns rest 0
  | .sleepFor d :: rest, acc => sleepRuns rest (acc + d)
  | .inject _ :: rest, acc => sleepRuns rest acc

/-- The longest time the replay path sleeps without re-reading the
cancellation flag, over one pass trace. -/
def Player.maxUncheckedSleep (tr : List TraceOp) : Rat :=
  (sleepRuns tr 0).foldr max 0

/-- The number of flag checks in a trace. -/
def Player.checkCount : List TraceOp → Nat
  | [] => 0
  | .check :: rest => checkCount rest + 1
  | _ :: rest => checkCount rest

/-- The durations of the individual `time.sleep` calls of a trace, in
order. -/
def Player.traceSleeps : List TraceOp → List Rat
  | [] => []
  | .sleepFor d :: rest => d :: traceSleeps rest
  | _ :: rest => traceSleeps rest

/-- The full remaining wait before each event of a pass (clamped at 0), the
quantity `start + event.timestamp - now` that `_play_once` hands to a single
`time.sleep` (src/main.py lines 347-349). -/
def Player.waitsList : List Event → Rat → List Rat
  | [], _ => []
  | e :: rest, now =>
    (if 0 < e.timestamp - now then e.timestamp - now else 0) ::
      waitsList rest (max now e.timestamp)

/-- Claim C9 as stated: during every uncancelled pass, the wait between
consecutive events re-checks the cancellation flag at sub-event granularity
— the replay path never sleeps, without an intervening flag check, longer
than the 1 s bound that makes `stop()`'s timeout meaningful. -/
def Player.SubEventCancellation : Prop :=
  ∀ events : List Event,
    maxUncheckedSleep ((play_once_tr neverStop events 0 0).1) ≤ STOP_TIMEOUT

/-
  Theorems.  The claim theorems are named C1..C10; the rest are
  supporting lemmas.
-/

theorem lookup_cons_ne {β : Type} (k k' : String) (h : (k' == k) = false)
    (v : β) (L : List (String × β)) :
    List.lookup k' ((k, v) :: L) = List.lookup k' L := by
  simp [List.lookup, h]

theorem lookup_optField_ne (k k' : String) (h : (k' == k) = false)
    (v : Option PyVal) (L : List (String × PyVal)) :
    List.lookup k' (optField k v ++ L) = List.lookup k' L := by
  cases v <;> simp [optField, List.lookup, h]

theorem lookup_optField_eq (k : String) (v : Option PyVal)
    (L : List (String × PyVal)) (hL : List.lookup k L = none) :
    List.lookup k (optField k v ++ L) = v := by
  cases v <;> simp [optField, List.lookup, hL]

/- ### Valid populated fields (spec section 3 / section 6: the fields meaningful to
each kind, with their wire types; coordinates and scroll deltas are integers,
so their rationals have denominator 1) -/

theorem optIsIntNum_shape {o : Option PyVal} (h : optIsIntNum o = true) :
    ∃ q : Rat, o = some (.num q) := by
  cases o with
  | none => simp [optIsIntNum] at h
  | some v =>
    cases v <;> simp [optIsIntNum] at h
    exact ⟨_, rfl⟩

theorem optIsStr_shape {o : Option PyVal} (h : optIsStr o = true) :
    ∃ s : String, o = some (.str s) := by
  cases o with
  | none => simp [optIsStr] at h
  | some v =>
    cases v <;> simp [optIsStr] at h
    exact ⟨_, rfl⟩

theorem optIsBool_shape {o : Option PyVal} (h : optIsBool o = true) :
    ∃ b : Bool, o = some (.bool b) := by
  cases o with
  | none => simp [optIsBool] at h
  | some v =>
    cases v <;> simp [optIsBool] at h
    exact ⟨_, rfl⟩

theorem optIsBtn_shape {o : Option PyVal} (h : optIsBtn o = true) :
    ∃ s : String, o = some (.str s) := by
  cases o with
  | none => simp [optIsBtn] at h
  | some v =>
    cases v <;> simp [optIsBtn] at h
    exact ⟨_, rfl⟩

/-- Event-level round trip: deserializing the serialized form of an event with
only valid populated fields restores it exactly. -/
theorem event_roundtrip (e : Event) (h : e.validFields = true) :
    Event.from_dict (.dict e.to_dict) = .ok e := by
  obtain ⟨ty, ts, x, y, b, k, p, dx, dy⟩ := e
  cases ty <;>
    simp only [Event.validFields, Bool.and_eq_true, and_assoc,
      Option.isNone_iff_eq_none] at h <;>
    obtain ⟨h1, h2, h3, h4, h5, h6, h7⟩ := h
  case mk.MOUSE_MOVE.intro.intro.intro.intro.intro.intro =>
    obtain ⟨qx, rfl⟩ := optIsIntNum_shape h1
    obtain ⟨qy, rfl⟩ := optIsIntNum_shape h2
    subst h3 h4 h5 h6 h7
    rfl
  case mk.MOUSE_CLICK.intro.intro.intro.intro.intro.intro =>
    obtain ⟨qx, rfl⟩ := optIsIntNum_shape h1
    obtain ⟨qy, rfl⟩ := optIsIntNum_shape h2
    obtain ⟨sb, rfl⟩ := optIsBtn_shape h3
    obtain ⟨bp, rfl⟩ := optIsBool_shape h5
    subst h4 h6 h7
    rfl
  case mk.MOUSE_SCROLL.intro.intro.intro.intro.intro.intro =>
    obtain ⟨qx, rfl⟩ := optIsIntNum_shape h1
    obtain ⟨qy, rfl⟩ := optIsIntNum_shape h2
    obtain ⟨qdx, rfl⟩ := optIsIntNum_shape h6
    obtain ⟨qdy, rfl⟩ := optIsIntNum_shape h7
    subst h3 h4 h5
    rfl
  case mk.KEY_PRESS.intro.intro.intro.intro.intro.intro =>
    obtain ⟨sk, rfl⟩ := optIsStr_shape h4
    obtain ⟨bp, rfl⟩ := optIsBool_shape h5
    subst h1 h2 h3 h6 h7
    rfl
  case mk.KEY_RELEASE.intro.intro.intro.intro.intro.intro =>
    obtain ⟨sk, rfl⟩ := optIsStr_shape h4
    obtain ⟨bp, rfl⟩ := optIsBool_shape h5
    subst h1 h2 h3 h6 h7
    rfl

theorem parseEvents_map_roundtrip (l : List Event)
    (h : ∀ e ∈ l, Event.validFields e = true) :
    ∀ i, parseEvents (l.map (fun e => PyVal.dict e.to_dict)) i = .ok l := by
  induction l with
  | nil => intro i; rfl
  | cons e rest ih =>
    intro i
    have h1 := event_roundtrip e (h e (List.mem_cons_self e rest))
    have h2 := ih (fun a ha => h a (List.mem_cons_of_mem e ha)) (i + 1)
    simp [parseEvents, h1, h2]

/-- Claim C1 — Serialization round trip: a `Macro` whose events carry only
valid populated fields survives `to_dict` followed by `from_dict` exactly:
every populated payload field, the kind and timestamp of every event (in
order), and the `name` and `created_at` metadata are restored. -/
theorem C1_roundtrip (m : Macro) (h : m.events.all Event.validFields = true) :
    Macro.from_dict (Macro.to_dict m) = .ok m := by
  obtain ⟨nm, evs, ca⟩ := m
  rw [List.all_eq_true] at h
  have hp := parseEvents_map_roundtrip evs h 0
  have key : Macro.from_dict (Macro.to_dict ⟨nm, evs, ca⟩) =
      (match parseEvents (evs.map (fun e => PyVal.dict e.to_dict)) 0 with
       | .error er => .error er
       | .ok evs2 => .ok (⟨nm, evs2, ca⟩ : Macro)) := rfl
  rw [hp] at key
  exact key

/-- Witness for C1 at a concrete five-event timeline, one event of each kind. -/
theorem C1_roundtrip_witness :
    ((Macro.mk (.str "demo")
        [⟨.MOUSE_MOVE, 0, some (.num 10), some (.num 10), none, none, none, none, none⟩,
         ⟨.MOUSE_CLICK, 1/20, some (.num 10), some (.num 10), some (.str "left"), none,
            some (.bool true), none, none⟩,
         ⟨.MOUSE_SCROLL, 3/50, some (.num 10), some (.num 10), none, none, none,
            some (.num 0), some (.num (-2))⟩,
         ⟨.KEY_PRESS, 1/10, none, none, none, some (.str "a"), some (.bool true), none, none⟩,
         ⟨.KEY_RELEASE, 11/100, none, none, none, some (.str "a"), some (.bool false), none, none⟩]
        (.str "2024-01-01T00:00:00")).events.all Event.validFields = true)
    ∧ Macro.from_dict (Macro.to_dict (Macro.mk (.str "demo")
        [⟨.MOUSE_MOVE, 0, some (.num 10), some (.num 10), none, none, none, none, none⟩,
         ⟨.MOUSE_CLICK, 1/20, some (.num 10), some (.num 10), some (.str "left"), none,
            some (.bool true), none, none⟩,
         ⟨.MOUSE_SCROLL, 3/50, some (.num 10), some (.num 10), none, none, none,
            some (.num 0), some (.num (-2))⟩,
         ⟨.KEY_PRESS, 1/10, none, none, none, some (.str "a"), some (.bool true), none, none⟩,
         ⟨.KEY_RELEASE, 11/100, none, none, none, some (.str "a"), some (.bool false), none, none⟩]
        (.str "2024-01-01T00:00:00")))
      = .ok (Macro.mk (.str "demo")
        [⟨.MOUSE_MOVE, 0, some (.num 10), some (.num 10), none, none, none, none, none⟩,
         ⟨.MOUSE_CLICK, 1/20, some (.num 10), some (.num 10), some (.str "left"), none,
            some (.bool true), none, none⟩,
         ⟨.MOUSE_SCROLL, 3/50, some (.num 10), some (.num 10), none, none, none,
            some (.num 0), some (.num (-2))⟩,
         ⟨.KEY_PRESS, 1/10, none, none, none, some (.str "a"), some (.bool true), none, none⟩,
         ⟨.KEY_RELEASE, 11/100, none, none, none, some (.str "a"), some (.bool false), none, none⟩]
        (.str "2024-01-01T00:00:00")) :=
  ⟨rfl, C1_roundtrip _ rfl⟩

/-- Claim C7 — Event deserialization errors: `from_dict` fails, citing the
offending field, exactly when `type` is absent, `type` is outside the closed
five-kind set, or `timestamp` is absent or non-numeric (in Python's sense:
`isinstance(v, (int, float))`, which admits `bool`).  On success the timestamp
is the `float(...)` coercion of the stored value, every optional payload field
is the `d.get` of its key (absent keys default to absent), and a record
extended with an unknown key deserializes identically. -/
theorem C7_event_deserialize (d : List (String × PyVal)) :
    ((List.lookup "type" d = none ∨ List.lookup "timestamp" d = none) →
        Event.from_dict (.dict d) = .error .missingRequired)
    ∧ (∀ tv tsv, List.lookup "type" d = some tv →
        List.lookup "timestamp" d = some tsv →
        (EventType.fromPy tv = none →
            Event.from_dict (.dict d) = .error (.invalidType tv))
        ∧ (∀ ty, EventType.fromPy tv = some ty → tsv.isNumeric = false →
            Event.from_dict (.dict d) = .error (.timestampNotNumber tsv))
        ∧ (∀ ty, EventType.fromPy tv = some ty → tsv.isNumeric = true →
            Event.from_dict (.dict d) =
              .ok { type := ty, timestamp := tsv.toRat,
                    x := pyGetOpt d "x", y := pyGetOpt d "y",
                    button := pyGetOpt d "button", key := pyGetOpt d "key",
                    pressed := pyGetOpt d "pressed",
                    scroll_dx := pyGetOpt d "scroll_dx",
                    scroll_dy := pyGetOpt d "scroll_dy" }))
    ∧ (isErr (Event.from_dict (.dict d)) = true ↔
        (List.lookup "type" d = none ∨ List.lookup "timestamp" d = none
         ∨ (∃ tv, List.lookup "type" d = some tv ∧ EventType.fromPy tv = none)
         ∨ (∃ tsv, List.lookup "timestamp" d = some tsv ∧
              tsv.isNumeric = false)))
    ∧ (∀ k v, k ∉ eventKnownKeys →
        Event.from_dict (.dict ((k, v) :: d)) = Event.from_dict (.dict d))
    ∧ (∀ k, List.lookup k d = none → pyGetOpt d k = none) := by
  refine ⟨?_, ?_, ?_, ?_, ?_⟩
  · rintro (h | h)
    · simp [Event.from_dict, h]
    · cases hty : List.lookup "type" d <;> simp [Event.from_dict, hty, h]
  · intro tv tsv htv hts
    refine ⟨?_, ?_, ?_⟩
    · intro h; simp [Event.from_dict, htv, hts, h]
    · intro ty hty h; simp [Event.from_dict, htv, hts, hty, h]
    · intro ty hty h; simp [Event.from_dict, htv, hts, hty, h]
  · cases htv : List.lookup "type" d with
    | none => simp [Event.from_dict, isErr, htv]
    | some tv =>
      cases hts : List.lookup "timestamp" d with
      | none => simp [Event.from_dict, isErr, htv, hts]
      | some tsv =>
        cases hfp : EventType.fromPy tv with
        | none => simp [Event.from_dict, isErr, htv, hts, hfp]
        | some ty =>
          cases hnum : tsv.isNumeric <;>
            simp [Event.from_dict, isErr, htv, hts, hfp, hnum]
  · intro k v hk
    have hne : ∀ k2, k2 ∈ eventKnownKeys → (k2 == k) = false := by
      intro k2 hk2
      rw [beq_eq_false_iff_ne]
      rintro rfl
      exact hk hk2
    simp only [Event.from_dict, pyGetOpt]
    rw [lookup_cons_ne _ _ (hne "type" (by simp [eventKnownKeys])),
        lookup_cons_ne _ _ (hne "timestamp" (by simp [eventKnownKeys])),
        lookup_cons_ne _ _ (hne "x" (by simp [eventKnownKeys])),
        lookup_cons_ne _ _ (hne "y" (by simp [eventKnownKeys])),
        lookup_cons_ne _ _ (hne "button" (by simp [eventKnownKeys])),
        lookup_cons_ne _ _ (hne "key" (by simp [eventKnownKeys])),
        lookup_cons_ne _ _ (hne "pressed" (by simp [eventKnownKeys])),
        lookup_cons_ne _ _ (hne "scroll_dx" (by simp [eventKnownKeys])),
        lookup_cons_ne _ _ (hne "scroll_dy" (by simp [eventKnownKeys]))]
  · intro k hk
    simp [pyGetOpt, hk]

/-- Witness for C7: a record with a timestamp but no `type` fails with the
required-fields error. -/
theorem C7_event_deserialize_witness :
    (List.lookup "type" [("timestamp", PyVal.num 1)] = none
      ∨ List.lookup "timestamp" [("timestamp", PyVal.num 1)] = none)
    ∧ Event.from_dict (.dict [("timestamp", PyVal.num 1)])
        = .error .missingRequired :=
  ⟨Or.inl rfl, (C7_event_deserialize [("timestamp", PyVal.num 1)]).1 (Or.inl rfl)⟩

theorem parseEvents_ok_iff (l : List PyVal) :
    ∀ i evs, parseEvents l i = .ok evs ↔
      List.Forall₂ (fun x ev => Event.from_dict x = .ok ev) l evs := by
  induction l with
  | nil =>
    intro i evs
    simp [parseEvents, List.forall₂_nil_left_iff, eq_comm]
  | cons x rest ih =>
    intro i evs
    constructor
    · intro h
      simp only [parseEvents] at h
      cases hfd : Event.from_dict x with
      | error er => rw [hfd] at h; simp at h
      | ok ev =>
        rw [hfd] at h
        cases hp : parseEvents rest (i + 1) with
        | error er2 => rw [hp] at h; simp at h
        | ok evs2 =>
          rw [hp] at h
          simp only [Except.ok.injEq] at h
          subst h
          exact List.Forall₂.cons hfd ((ih (i + 1) evs2).mp hp)
    · intro h
      cases h with
      | cons hx hrest =>
        simp [parseEvents, hx, (ih (i + 1) _).mpr hrest]

theorem parseEvents_err_shape (l : List PyVal) :
    ∀ i er, parseEvents l i = .error er →
      ∃ n er2, er = MacroError.badEvent n er2 := by
  induction l with
  | nil => intro i er h; simp [parseEvents] at h
  | cons x rest ih =>
    intro i er h
    simp only [parseEvents] at h
    cases hfd : Event.from_dict x with
    | error e2 =>
      rw [hfd] at h
      simp only [Except.error.injEq] at h
      exact ⟨i, e2, h.symm⟩
    | ok ev =>
      rw [hfd] at h
      cases hp : parseEvents rest (i + 1) with
      | error er2 =>
        rw [hp] at h
        simp only [Except.error.injEq] at h
        rw [← h]
        exact ih (i + 1) er2 hp
      | ok evs => rw [hp] at h; simp at h

theorem parseEvents_err_first (l : List PyVal) :
    ∀ i n er, parseEvents l i = .error (.badEvent n er) →
      ∃ pre x post, l = pre ++ x :: post ∧ n = i + pre.length ∧
        (∀ y ∈ pre, isErr (Event.from_dict y) = false) ∧
        Event.from_dict x = .error er := by
  induction l with
  | nil => intro i n er h; simp [parseEvents] at h
  | cons x rest ih =>
    intro i n er h
    simp only [parseEvents] at h
    cases hfd : Event.from_dict x with
    | error e2 =>
      rw [hfd] at h
      simp only [Except.error.injEq, MacroError.badEvent.injEq] at h
      obtain ⟨hn, he⟩ := h
      refine ⟨[], x, rest, rfl, by simp [hn], by simp, by rw [hfd, he]⟩
    | ok ev =>
      rw [hfd] at h
      cases hp : parseEvents rest (i + 1) with
      | error er2 =>
        rw [hp] at h
        simp only [Except.error.injEq] at h
        subst h
        obtain ⟨pre, x2, post, hl, hn, hpre, hx⟩ := ih (i + 1) n er hp
        refine ⟨x :: pre, x2, post, by simp [hl], by simp [hn]; omega, ?_, hx⟩
        intro y hy
        rcases List.mem_cons.mp hy with rfl | hy2
        · simp [isErr, hfd]
        · exact hpre y hy2
      | ok evs => rw [hp] at h; simp at h

theorem parseEvents_isErr_iff (l : List PyVal) :
    ∀ i, isErr (parseEvents l i) = true ↔
      ∃ x ∈ l, isErr (Event.from_dict x) = true := by
  induction l with
  | nil => intro i; simp [parseEvents, isErr]
  | cons x rest ih =>
    intro i
    simp only [parseEvents]
    cases hfd : Event.from_dict x with
    | error er =>
      constructor
      · intro _
        exact ⟨x, List.mem_cons_self x rest, by simp [isErr, hfd]⟩
      · intro _
        rfl
    | ok ev =>
      have hmatch : isErr
          (match parseEvents rest (i + 1) with
           | .error er2 => (.error er2 : Except MacroError (List Event))
           | .ok evs => .ok (ev :: evs)) = isErr (parseEvents rest (i + 1)) := by
        cases parseEvents rest (i + 1) <;> rfl
      rw [hmatch, ih (i + 1)]
      constructor
      · rintro ⟨y, hy, hyerr⟩
        exact ⟨y, List.mem_cons_of_mem x hy, hyerr⟩
      · rintro ⟨y, hy, hyerr⟩
        rcases List.mem_cons.mp hy with rfl | hy2
        · rw [hfd] at hyerr; simp [isErr] at hyerr
        · exact ⟨y, hy2, hyerr⟩

/-- Claim C8 — Timeline deserialization errors and atomicity:
`Macro.from_dict` on a record fails with `missingEvents` when `events` is
absent, with `eventsNotList` when `events` is not a list, and otherwise fails
exactly when some element fails event deserialization; a `badEvent` failure
cites the index of the first bad event (everything before it deserialized
fine).  On success every element was deserialized, in order (`Forall₂`), so a
failed load never yields a partially populated timeline — the `Except` result
is all-or-nothing by construction. -/
theorem C8_timeline_deserialize (d : List (String × PyVal)) :
    (List.lookup "events" d = none →
        Macro.from_dict (.dict d) = .error .missingEvents)
    ∧ (∀ v, List.lookup "events" d = some v → (∀ l, v ≠ PyVal.list l) →
        Macro.from_dict (.dict d) = .error .eventsNotList)
    ∧ (∀ l, List.lookup "events" d = some (PyVal.list l) →
        ((isErr (Macro.from_dict (.dict d)) = true ↔
            ∃ x ∈ l, isErr (Event.from_dict x) = true)
         ∧ (∀ n er, Macro.from_dict (.dict d) = .error (.badEvent n er) →
              ∃ pre x post, l = pre ++ x :: post ∧ n = pre.length ∧
                (∀ y ∈ pre, isErr (Event.from_dict y) = false) ∧
                Event.from_dict x = .error er)
         ∧ (∀ er, Macro.from_dict (.dict d) = .error er →
              ∃ n er2, er = MacroError.badEvent n er2)
         ∧ (∀ m, Macro.from_dict (.dict d) = .ok m →
              List.Forall₂ (fun x ev => Event.from_dict x = .ok ev) l m.events
              ∧ m.name = pyGetD d "name" (.str "Untitled")
              ∧ m.created_at = pyGetD d "created_at" (.str "")))) := by
  refine ⟨?_, ?_, ?_⟩
  · intro h; simp [Macro.from_dict, h]
  · intro v hv hnl
    cases v <;> simp [Macro.from_dict, hv]
    exact absurd rfl (hnl _)
  · intro l hv
    refine ⟨?_, ?_, ?_, ?_⟩
    · rw [← parseEvents_isErr_iff l 0]
      cases hp : parseEvents l 0 <;> simp [Macro.from_dict, hv, hp, isErr]
    · intro n er h
      simp only [Macro.from_dict, hv] at h
      cases hp : parseEvents l 0 with
      | error er2 =>
        rw [hp] at h
        simp only [Except.error.injEq] at h
        subst h
        obtain ⟨pre, x, post, hl, hn, hpre, hx⟩ :=
          parseEvents_err_first l 0 n er hp
        exact ⟨pre, x, post, hl, by omega, hpre, hx⟩
      | ok evs => rw [hp] at h; simp at h
    · intro er h
      simp only [Macro.from_dict, hv] at h
      cases hp : parseEvents l 0 with
      | error er2 =>
        rw [hp] at h
        simp only [Except.error.injEq] at h
        rw [← h]
        exact parseEvents_err_shape l 0 er2 hp
      | ok evs => rw [hp] at h; simp at h
    · intro m h
      simp only [Macro.from_dict, hv] at h
      cases hp : parseEvents l 0 with
      | error er2 => rw [hp] at h; simp at h
      | ok evs =>
        rw [hp] at h
        simp only [Except.ok.injEq] at h
        subst h
        exact ⟨(parseEvents_ok_iff l 0 evs).mp hp, rfl, rfl⟩

/-- Witness for C8: a record without an `events` key fails with
`missingEvents`. -/
theorem C8_timeline_deserialize_witness :
    List.lookup "events" [("name", PyVal.str "m")] = none
    ∧ Macro.from_dict (.dict [("name", PyVal.str "m")])
        = .error .missingEvents :=
  ⟨rfl, (C8_timeline_deserialize [("name", PyVal.str "m")]).1 rfl⟩

/-- Claim C2 — the Recorder never records the session-control trigger keys.
This FAILS for Escape: pynput delivers the escape key as the enum member
`esc`, whose name is "esc", while `EXCLUDED_HOTKEYS` lists "escape" — so an
Escape press or release while Active IS appended to the buffer (with key
"esc").  F9 and F10 are dropped as intended.  The "escape" entry of the
exclusion list is dead: the recorder can never produce that name. -/
theorem C2_escape_recorded :
    (Recorder.on_press (Recorder.start ⟨[], false, 0⟩) (mkRat 1 2)
        (.special .esc)).events
      = [{ type := .KEY_PRESS, timestamp := mkRat 1 2,
           key := some (.str "esc"), pressed := some (.bool true) }]
    ∧ (Recorder.on_release (Recorder.start ⟨[], false, 0⟩) (mkRat 1 2)
        (.special .esc)).events
      = [{ type := .KEY_RELEASE, timestamp := mkRat 1 2,
           key := some (.str "esc"), pressed := some (.bool false) }]
    ∧ (Recorder.on_press (Recorder.start ⟨[], false, 0⟩) (mkRat 1 2)
        (.special .f9)).events = []
    ∧ (Recorder.on_press (Recorder.start ⟨[], false, 0⟩) (mkRat 1 2)
        (.special .f10)).events = []
    ∧ (Recorder.on_release (Recorder.start ⟨[], false, 0⟩) (mkRat 1 2)
        (.special .f10)).events = []
    ∧ Recorder.key_name (.special .esc) = some "esc"
    ∧ "esc" ∉ Recorder.EXCLUDED_HOTKEYS
    ∧ "escape" ∈ Recorder.EXCLUDED_HOTKEYS :=
  ⟨rfl, rfl, rfl, rfl, rfl, rfl, by decide, by decide⟩

set_option maxRecDepth 100000 in
/-- Claim C6 — Move throttling: while Active, a move notification less than
20 ms after the last recorded move is discarded and the state is unchanged;
otherwise a MouseMove event is appended and the marker is updated.
Consequently a synthetic 1 ms-interval move stream covering 0..200 ms yields
at most 200/20 + 1 = 11 MouseMove events. -/
theorem C6_move_throttle :
    (∀ (s : Recorder.RecState) (t : Rat) (x y : Int), s.recording = true →
      (t - s.last_move < Recorder.INTERVAL → Recorder.on_move s t x y = s)
      ∧ (¬(t - s.last_move < Recorder.INTERVAL) →
          Recorder.on_move s t x y =
            { s with last_move := t,
                     events := s.events ++
                       [{ type := .MOUSE_MOVE, timestamp := t,
                          x := some (.num x), y := some (.num y) }] }))
    ∧ ((((List.range 201).map (fun k => mkRat k 1000)).foldl
          (fun s t => Recorder.on_move s t 0 0)
          (Recorder.start ⟨[], false, 0⟩)).events.countP
            (fun e => e.type == EventType.MOUSE_MOVE)) ≤ 11 := by
  constructor
  · intro s t x y hrec
    constructor
    · intro hlt
      simp [Recorder.on_move, hrec, hlt]
    · intro hge
      simp [Recorder.on_move, hrec, hge]
  · with_unfolding_all decide

/-- Witness for C6 at a concrete state: 10 ms after the last recorded move,
the notification is discarded. -/
theorem C6_move_throttle_witness :
    ((⟨[], true, 0⟩ : Recorder.RecState).recording = true)
    ∧ (mkRat 1 100 - (⟨[], true, 0⟩ : Recorder.RecState).last_move
        < Recorder.INTERVAL)
    ∧ Recorder.on_move ⟨[], true, 0⟩ (mkRat 1 100) 5 5 = ⟨[], true, 0⟩ :=
  ⟨rfl, by with_unfolding_all decide,
    (C6_move_throttle.1 ⟨[], true, 0⟩ (mkRat 1 100) 5 5 rfl).1 (by with_unfolding_all decide)⟩

/-- Claim C3 — Key-name codec symmetry.  This FAILS for the "escape" entry:
`Player._to_key` maps "escape" to the native `esc` key, but the Recorder's
`_key_name` stamps that native key as "esc", not "escape" — and "esc" is not
accepted by the name-to-native direction at all (it is a 3-character unknown
name), so a recorded escape key does not resolve back to a native key on
replay.  Every other entry of the table round-trips, and an unrecognized
multi-character name ("banana_key") yields absent, as claimed. -/
theorem C3_escape_key_codec :
    Player.to_key "escape" = some (Sum.inl PynputKey.esc)
    ∧ Recorder.key_name (.special PynputKey.esc) = some "esc"
    ∧ Recorder.key_name (.special PynputKey.esc) ≠ some "escape"
    ∧ Player.to_key "esc" = none
    ∧ (Player.specialKeys.all (fun p =>
        p.1 == "escape" ||
          (decide (Recorder.key_name (.special p.2) = some p.1)
            && decide (Player.to_key p.1 = some (Sum.inl p.2))))) = true
    ∧ Player.to_key "banana_key" = none :=
  ⟨rfl, rfl, by decide, rfl, by decide, rfl⟩

/-- Claim C10 — Implicit payload precondition for injection: a MouseClick
event with any of `x`, `y`, `button`, `pressed` absent, a MouseScroll event
with `x` or `y` absent, and a MouseMove event with `x` or `y` absent, all
perform no OS action and report no error — the event is silently skipped.
Moreover click injection never uses the values of the `x`/`y` coordinates
(it only requires their presence). -/
theorem C10_skip_missing_payload (e : Event) (raises : OSAction → Bool) :
    (e.type = .MOUSE_CLICK →
      (e.x = none ∨ e.y = none ∨ e.button = none ∨ e.pressed = none) →
      Player.play_event raises e = ([], false))
    ∧ (e.type = .MOUSE_SCROLL → (e.x = none ∨ e.y = none) →
      Player.play_event raises e = ([], false))
    ∧ (e.type = .MOUSE_MOVE → (e.x = none ∨ e.y = none) →
      Player.play_event raises e = ([], false))
    ∧ (e.type = .MOUSE_CLICK → ∀ v1 v2 v3 v4,
      Player.play_event raises { e with x := some v1, y := some v2 } =
        Player.play_event raises { e with x := some v3, y := some v4 }) := by
  obtain ⟨ty, ts, x, y, b, k2, p2, dx, dy⟩ := e
  refine ⟨?_, ?_, ?_, ?_⟩
  · rintro rfl (rfl | rfl | rfl | rfl)
    · cases b <;> cases p2 <;> cases y <;> rfl
    · cases b <;> cases p2 <;> cases x <;> rfl
    · cases p2 <;> cases x <;> cases y <;> rfl
    · cases b <;> cases x <;> cases y <;> rfl
  · rintro rfl (rfl | rfl)
    · cases y <;> rfl
    · cases x <;> rfl
  · rintro rfl (rfl | rfl)
    · cases y <;> rfl
    · cases x <;> rfl
  · rintro rfl
    intro v1 v2 v3 v4
    cases b <;> cases p2 <;> rfl

/-- Witness for C10: a MouseClick missing its button is skipped with no OS
action and no error. -/
theorem C10_skip_missing_payload_witness :
    ((⟨.MOUSE_CLICK, 0, some (.num 1), some (.num 2), none, none,
        some (.bool true), none, none⟩ : Event).type = .MOUSE_CLICK)
    ∧ Player.play_event (fun _ => false)
        ⟨.MOUSE_CLICK, 0, some (.num 1), some (.num 2), none, none,
          some (.bool true), none, none⟩ = ([], false) :=
  ⟨rfl, (C10_skip_missing_payload _ (fun _ => false)).1 rfl
    (Or.inr (Or.inr (Or.inl rfl)))⟩

theorem Player.play_once_tr_index_ge (f : Nat → Bool) (es : List Event) :
    ∀ now i, i ≤ (play_once_tr f es now i).2 := by
  induction es with
  | nil => intro now i; simp [play_once_tr]
  | cons e rest ih =>
    intro now i
    simp only [play_once_tr]
    split
    · simp
    · have := ih (max now e.timestamp) (i + 1)
      simp only []
      omega

theorem Player.play_once_tr_neverStop_snd (es : List Event) :
    ∀ now i, (play_once_tr neverStop es now i).2 = i + es.length := by
  induction es with
  | nil => intro now i; simp [play_once_tr]
  | cons e rest ih =>
    intro now i
    simp only [play_once_tr, neverStop]
    rw [if_neg (by simp)]
    simp only [List.length_cons]
    rw [ih (max now e.timestamp) (i + 1)]
    omega

theorem Player.play_once_tr_neverStop_fst (es : List Event) :
    ∀ now i j,
      (play_once_tr neverStop es now i).1 =
        (play_once_tr neverStop es now j).1 := by
  induction es with
  | nil => intro now i j; rfl
  | cons e rest ih =>
    intro now i j
    have h2 := ih (max now e.timestamp) (i + 1) (j + 1)
    simp only [play_once_tr, neverStop, Bool.false_eq_true, if_false, h2]

theorem Player.injectCount_play_once_tr (es : List Event) :
    ∀ now i,
      injectCount (play_once_tr neverStop es now i).1 = es.length := by
  induction es with
  | nil => intro now i; rfl
  | cons e rest ih =>
    intro now i
    simp only [play_once_tr, neverStop]
    rw [if_neg (by simp)]
    split
    · simp only [injectCount, List.cons_append, List.nil_append,
        List.length_cons]
      rw [ih (max now e.timestamp) (i + 1)]
    · simp only [injectCount, List.nil_append, List.length_cons]
      rw [ih (max now e.timestamp) (i + 1)]

theorem Player.run_aux_zero_none (events : List Event) :
    ∀ fuel loop i, run_aux neverStop events 0 fuel loop i = none := by
  intro fuel
  induction fuel with
  | zero => intro loop i; rfl
  | succ n ih =>
    intro loop i
    simp only [run_aux, neverStop]
    rw [if_neg (by simp), if_neg (by omega)]
    rw [ih (loop + 1) (play_once_tr neverStop events 0 (i + 1)).2]

theorem Player.run_aux_stopFrom_terminates (events : List Event) (lc : Int)
    (N : Nat) :
    ∀ fuel loop i, N + 1 - i < fuel →
      ∃ r, run_aux (stopFrom N) events lc fuel loop i = some r := by
  intro fuel
  induction fuel with
  | zero => intro loop i h; exact absurd h (by omega)
  | succ n ih =>
    intro loop i h
    by_cases hN : N ≤ i
    · have hflag : stopFrom N i = true := by simp [stopFrom]; omega
      refine ⟨([], true, !stopFrom N (i + 1)), ?_⟩
      simp only [run_aux, hflag, if_pos]
    · have hflag : stopFrom N i = false := by simp [stopFrom]; omega
      have hidx : i + 1 ≤ (play_once_tr (stopFrom N) events 0 (i + 1)).2 :=
        play_once_tr_index_ge (stopFrom N) events 0 (i + 1)
      by_cases hcond : 0 < lc ∧ lc ≤ (loop : Int) + 1
      · refine ⟨([(play_once_tr (stopFrom N) events 0 (i + 1)).1], false,
            !stopFrom N (play_once_tr (stopFrom N) events 0 (i + 1)).2), ?_⟩
        simp only [run_aux, hflag, Bool.false_eq_true, if_false]
        rw [if_pos hcond]
      · obtain ⟨r, hr⟩ := ih (loop + 1)
          ((play_once_tr (stopFrom N) events 0 (i + 1)).2) (by omega)
        obtain ⟨trs, c, comp⟩ := r
        refine ⟨((play_once_tr (stopFrom N) events 0 (i + 1)).1 :: trs,
            c, comp), ?_⟩
        simp only [run_aux, hflag, Bool.false_eq_true, if_false]
        rw [if_neg hcond, hr]

theorem Player.run_aux_exact_passes (events : List Event) (lc : Int)
    (hlc : 0 < lc) :
    ∀ (k : Nat) fuel (loop : Nat) i, 0 < k → k ≤ fuel →
      (loop : Int) + k = lc →
      run_aux neverStop events lc fuel loop i =
        some (List.replicate k (play_once_tr neverStop events 0 0).1,
          false, true) := by
  intro k
  induction k with
  | zero => intro fuel loop i h0; exact absurd h0 (by omega)
  | succ k ih =>
    intro fuel loop i hpos hfuel hsum
    obtain ⟨n, rfl⟩ : ∃ n, fuel = n + 1 := ⟨fuel - 1, by omega⟩
    simp only [run_aux, neverStop, Bool.false_eq_true, if_false]
    by_cases hk : k = 0
    · subst hk
      rw [if_pos ⟨hlc, by omega⟩,
        play_once_tr_neverStop_fst events 0 (i + 1) 0]
      rfl
    · rw [if_neg (by rintro ⟨h1, h2⟩; omega)]
      rw [ih n (loop + 1) ((play_once_tr neverStop events 0 (i + 1)).2)
        (by omega) (by omega) (by push_cast; push_cast at hsum; omega)]
      rw [List.replicate_succ,
        play_once_tr_neverStop_fst events 0 (i + 1) 0]

/-- Claim C4 — Loop semantics.  `set_loop` clamps the requested count with
`max(0, count)`.  For `count ≤ 0` the loop budget is 0, the break condition
`loop_count > 0 and loop >= loop_count` never fires, and the run loops
forever (every fuel bound returns `none`) until a `stop()` sets the flag,
after which it terminates.  For `count > 0` and no `stop()`, the run
performs exactly `count` identical full passes (each injecting every event
of the timeline) and exits with the natural-completion re-check true;
`_playing := False` on exit returns the Player to Idle (src/main.py lines
335-336; `start()` launches `_run` only for a nonempty timeline). -/
theorem Player.C4_loop_semantics (count : Int) (events : List Event) :
    (count ≤ 0 →
      (∀ fuel, run neverStop events (set_loop count) fuel = none)
      ∧ (∀ N, ∃ fuel r,
          run (stopFrom N) events (set_loop count) fuel = some r))
    ∧ (0 < count → ∀ fuel, count.toNat ≤ fuel →
      ∃ tr, run neverStop events (set_loop count) fuel
          = some (List.replicate count.toNat tr, false, true)
        ∧ injectCount tr = events.length) := by
  constructor
  · intro hc
    have hlc : set_loop count = 0 := by
      simp only [set_loop]
      omega
    rw [hlc]
    constructor
    · intro fuel
      exact run_aux_zero_none events fuel 0 0
    · intro N
      obtain ⟨r, hr⟩ :=
        run_aux_stopFrom_terminates events 0 N (N + 2) 0 0 (by omega)
      exact ⟨N + 2, r, hr⟩
  · intro hc fuel hfuel
    have hlc : set_loop count = count := by
      simp only [set_loop]
      omega
    rw [hlc]
    refine ⟨(play_once_tr neverStop events 0 0).1, ?_,
      injectCount_play_once_tr events 0 0⟩
    exact run_aux_exact_passes events count hc count.toNat fuel 0 0
      (by omega) hfuel (by omega)

/-- Witness for C4: two loops over a one-event timeline give exactly two
identical full passes with the completion re-check true. -/
theorem Player.C4_loop_semantics_witness :
    (0 < (2 : Int)) ∧ (2 : Int).toNat ≤ 2
    ∧ ∃ tr, run neverStop
          [⟨.KEY_PRESS, 0, none, none, none, some (.str "a"),
              some (.bool true), none, none⟩] (set_loop 2) 2
        = some (List.replicate (2 : Int).toNat tr, false, true)
      ∧ injectCount tr = 1 :=
  ⟨by omega, by omega,
    (C4_loop_semantics 2
      [⟨.KEY_PRESS, 0, none, none, none, some (.str "a"),
          some (.bool true), none, none⟩]).2 (by omega) 2 (by omega)⟩

theorem Player.run_aux_cancelled_no_complete (f : Nat → Bool)
    (hf : MonotoneFlag f) (events : List Event) (lc : Int) :
    ∀ fuel loop i trs comp,
      run_aux f events lc fuel loop i = some (trs, true, comp) →
      comp = false := by
  intro fuel
  induction fuel with
  | zero => intro loop i trs comp h; simp [run_aux] at h
  | succ n ih =>
    intro loop i trs comp h
    simp only [run_aux] at h
    by_cases hfi : f i = true
    · rw [if_pos hfi] at h
      simp only [Option.some.injEq, Prod.mk.injEq] at h
      have h2 : f (i + 1) = true := hf i (i + 1) (by omega) hfi
      rw [← h.2.2, h2]
      rfl
    · rw [if_neg hfi] at h
      by_cases hcond : 0 < lc ∧ lc ≤ (loop : Int) + 1
      · rw [if_pos hcond] at h
        simp only [Option.some.injEq, Prod.mk.injEq] at h
        exact absurd h.2.1.symm (by simp)
      · rw [if_neg hcond] at h
        rcases hr : run_aux f events lc n (loop + 1)
            ((play_once_tr f events 0 (i + 1)).2) with _ | ⟨trs2, c2, comp2⟩
        · rw [hr] at h; simp at h
        · rw [hr] at h
          simp only [Option.some.injEq, Prod.mk.injEq] at h
          rw [← h.2.2]
          exact ih (loop + 1) ((play_once_tr f events 0 (i + 1)).2) trs2
            comp2 (by rw [hr, h.2.1])

theorem Player.run_aux_neverStop_completes (events : List Event) (lc : Int) :
    ∀ fuel loop i trs c comp,
      run_aux neverStop events lc fuel loop i = some (trs, c, comp) →
      c = false ∧ comp = true := by
  intro fuel
  induction fuel with
  | zero => intro loop i trs c comp h; simp [run_aux] at h
  | succ n ih =>
    intro loop i trs c comp h
    simp only [run_aux, neverStop, Bool.false_eq_true, if_false] at h
    by_cases hcond : 0 < lc ∧ lc ≤ (loop : Int) + 1
    · rw [if_pos hcond] at h
      simp only [Option.some.injEq, Prod.mk.injEq] at h
      exact ⟨h.2.1.symm, h.2.2.symm⟩
    · rw [if_neg hcond] at h
      rcases hr : run_aux neverStop events lc n (loop + 1)
          ((play_once_tr neverStop events 0 (i + 1)).2) with _ | ⟨t2, c2, p2⟩
      · rw [hr] at h; simp at h
      · rw [hr] at h
        simp only [Option.some.injEq, Prod.mk.injEq] at h
        obtain ⟨h2, h3⟩ := ih (loop + 1)
          ((play_once_tr neverStop events 0 (i + 1)).2) t2 c2 p2 hr
        exact ⟨h.2.1 ▸ h2, h.2.2 ▸ h3⟩

/-- Claim C5 — Completion versus cancellation.  With a realizable
(monotone) stop flag, a run that terminates because the while-condition
observed the flag (ending marked cancelled) never lets the completion
callback fire: the final `not self._stop_flag` re-check still sees the flag.
A run during which `stop()` is never called terminates only by exhausting
its loop budget, and then the completion re-check is always true, so an
installed on-complete callback fires — exactly once, since `_run` reaches
its tail exactly once per run.  In both cases `_playing := False` has
already been executed (lines 335-336), so the Player is back to Idle. -/
theorem Player.C5_completion_vs_cancellation (f : Nat → Bool)
    (events : List Event) (lc : Int) (fuel : Nat)
    (hf : MonotoneFlag f) :
    (∀ trs comp, run f events lc fuel = some (trs, true, comp) →
      comp = false)
    ∧ (∀ trs c comp,
        run neverStop events lc fuel = some (trs, c, comp) →
        c = false ∧ comp = true) :=
  ⟨fun trs comp h =>
      run_aux_cancelled_no_complete f hf events lc fuel 0 0 trs comp h,
    fun trs c comp h =>
      run_aux_neverStop_completes events lc fuel 0 0 trs c comp h⟩

/-- Witness for C5: a stop flag set from the very first read cancels an
infinite run on its first while-check and the completion re-check is false. -/
theorem Player.C5_completion_vs_cancellation_witness :
    MonotoneFlag (stopFrom 0)
    ∧ run (stopFrom 0) [] 0 1 = some ([], true, false)
    ∧ false = false := by
  have hmono : MonotoneFlag (stopFrom 0) := by
    intro m n hmn hm
    simp [stopFrom]
  exact ⟨hmono, rfl,
    (C5_completion_vs_cancellation (stopFrom 0) [] 0 1 hmono).1 [] false rfl⟩

theorem Player.sleepRuns_play_once_tr (es : List Event) :
    ∀ now i acc,
      sleepRuns ((play_once_tr neverStop es now i).1) acc =
        acc :: waitsList es now := by
  induction es with
  | nil => intro now i acc; rfl
  | cons e rest ih =>
    intro now i acc
    simp only [play_once_tr, neverStop, Bool.false_eq_true, if_false,
      waitsList]
    by_cases hw : 0 < e.timestamp - now
    · rw [if_pos hw, if_pos hw]
      simp only [List.cons_append, List.nil_append, sleepRuns]
      rw [ih (max now e.timestamp) (i + 1) (0 + (e.timestamp - now))]
      rw [zero_add]
    · rw [if_neg hw, if_neg hw]
      simp only [List.nil_append, sleepRuns]
      rw [ih (max now e.timestamp) (i + 1) 0]

theorem Player.waitsList_nonneg (es : List Event) :
    ∀ now, ∀ w ∈ waitsList es now, 0 ≤ w := by
  induction es with
  | nil => intro now w hw; simp [waitsList] at hw
  | cons e rest ih =>
    intro now w hw
    simp only [waitsList, List.mem_cons] at hw
    rcases hw with rfl | hw
    · split
      · linarith
      · exact le_refl 0
    · exact ih (max now e.timestamp) w hw

theorem Player.foldr_max_nonneg (l : List Rat) : 0 ≤ l.foldr max 0 := by
  induction l with
  | nil => exact le_refl 0
  | cons a rest ih => exact le_trans ih (le_max_right a (rest.foldr max 0))

theorem Player.checkCount_play_once_tr (es : List Event) :
    ∀ now i,
      checkCount ((play_once_tr neverStop es now i).1) = es.length := by
  induction es with
  | nil => intro now i; rfl
  | cons e rest ih =>
    intro now i
    simp only [play_once_tr, neverStop, Bool.false_eq_true, if_false]
    by_cases hw : 0 < e.timestamp - now
    · rw [if_pos hw]
      simp only [List.cons_append, List.nil_append, checkCount,
        List.length_cons]
      rw [ih (max now e.timestamp) (i + 1)]
    · rw [if_neg hw]
      simp only [List.nil_append, checkCount, List.length_cons]
      rw [ih (max now e.timestamp) (i + 1)]

theorem Player.traceSleeps_play_once_tr (es : List Event) :
    ∀ now i,
      traceSleeps ((play_once_tr neverStop es now i).1) =
        (waitsList es now).filter (fun w => decide (0 < w)) := by
  induction es with
  | nil => intro now i; rfl
  | cons e rest ih =>
    intro now i
    simp only [play_once_tr, neverStop, Bool.false_eq_true, if_false,
      waitsList]
    by_cases hw : 0 < e.timestamp - now
    · rw [if_pos hw, if_pos hw]
      simp only [List.cons_append, List.nil_append, traceSleeps,
        List.filter_cons]
      rw [if_pos (by simp [hw])]
      rw [ih (max now e.timestamp) (i + 1)]
    · rw [if_neg hw, if_neg hw]
      simp only [List.nil_append, traceSleeps, List.filter_cons]
      rw [if_neg (by simp [hw])]
      rw [ih (max now e.timestamp) (i + 1)]

/-- Claim C9, counterexample — the code does NOT re-check cancellation at
sub-event granularity: for a two-event timeline with a 100 s gap, the single
`time.sleep` before the second event covers the whole gap with no
intervening flag check, far beyond the 1 s stop timeout. -/
theorem Player.C9_counterexample : ¬ SubEventCancellation := by
  intro h
  have h2 := h
    [⟨.MOUSE_MOVE, 0, some (.num 1), some (.num 1), none, none, none,
        none, none⟩,
     ⟨.MOUSE_MOVE, 100, some (.num 2), some (.num 2), none, none, none,
        none, none⟩]
  revert h2
  with_unfolding_all decide

/-- Claim C9, amended — what the wait actually does: in an uncancelled pass
the cancellation flag is read exactly once per event, before the wait; the
wait is issued as ONE `time.sleep` of the entire remaining inter-event gap
(the positive entries of `waitsList`, unchunked); hence the longest
check-free sleep of a pass equals the largest remaining gap, which is
unbounded — `stop()` still returns within its 1 s join timeout, but the
replay thread can stay sleeping through the rest of the gap (the source then
logs "Playback thread is taking too long to stop", lines 316-320). -/
theorem Player.C9_amended (events : List Event) (now : Rat) (i : Nat) :
    checkCount ((play_once_tr neverStop events now i).1) = events.length
    ∧ traceSleeps ((play_once_tr neverStop events now i).1)
        = (waitsList events now).filter (fun w => decide (0 < w))
    ∧ maxUncheckedSleep ((play_once_tr neverStop events now i).1)
        = (waitsList events now).foldr max 0 := by
  refine ⟨checkCount_play_once_tr events now i,
    traceSleeps_play_once_tr events now i, ?_⟩
  unfold maxUncheckedSleep
  rw [sleepRuns_play_once_tr events now i 0]
  simp only [List.foldr_cons]
  exact max_eq_right (foldr_max_nonneg (waitsList events now))

end EventPlayback
